import Mathlib

/-!
Verification of the support-assistant core against its specification.

Two components are embedded from the source:
* `src/dialogue/state.py` — the conversation state machine
  (`SpeakerRole`, `Turn`, `Session` with `add_turn`, `mark_escalated`,
  `hand_back_to_bot`, `get_recent_context`).
* `src/rag/simple_faq_rag.py` — the FAQ retrieval engine
  (`chunk_faq`, `build_faq_index`, `_cosine_sim`, `retrieve_faq_chunks`,
  `get_rag_context`).

Modelling conventions:
* Python strings are Lean `String`s for the dialogue layer and `List Char`
  for the chunker (where we reason about lengths character by character).
* Wall-clock timestamps produced by `datetime.now` are external inputs and
  are passed in as opaque strings.
* Embedding vectors are `List ℚ` (IEEE floats are a subset of the
  rationals); the external sentence-transformers model is a parameter.
* Similarity scores live in an arbitrary linear order `α` (the code uses
  floats, which are linearly ordered); the cosine function itself is also
  modelled concretely over `ℝ` as `cosine_sim`.
* Python's `list.sort(key=..., reverse=True)` is a stable descending sort;
  it is modelled as `insertionSort` on index-tagged entries under the
  lexicographic relation `sortKey` (score descending, original position
  ascending), which is exactly the specification of a stable sort.
* Python exceptions are modelled with `Except Unit`.
* Python slices `l[:k]` and `l[i:]` (with possibly negative bounds) are
  `pySliceTo` / `pySliceFrom`.
-/

/-! ### `src/dialogue/state.py` -/

/-- `SpeakerRole` enum: role of a message speaker in a session. -/
inductive SpeakerRole : Type where
  | CUSTOMER : SpeakerRole
  | BOT : SpeakerRole
  | HUMAN_AGENT : SpeakerRole
deriving DecidableEq

/-- `SpeakerRole.name` as used by `Turn.__str__` (Python enum member name). -/
def SpeakerRole.pyName : SpeakerRole → String
  | .CUSTOMER => "CUSTOMER"
  | .BOT => "BOT"
  | .HUMAN_AGENT => "HUMAN_AGENT"

/-- `Turn` dataclass: one turn in the conversation.  The timestamp is the
ISO rendering of the externally supplied wall-clock time; `meta` is not
inspected by any claimed operation and is omitted. -/
structure Turn : Type where
  speaker : SpeakerRole
  text : String
  timestamp : String
deriving DecidableEq

/-- `Turn.__str__`: `f"{self.timestamp.isoformat()} {self.speaker.name}: {self.text}"`. -/
def Turn.toStr (t : Turn) : String :=
  t.timestamp ++ " " ++ t.speaker.pyName ++ ": " ++ t.text

/-- `Session` dataclass: conversation session holding turns and state. -/
structure Session : Type where
  session_id : String
  turns : List Turn
  active_role : SpeakerRole
  issue_summary : Option String
  escalated : Bool
  resolved : Bool
deriving DecidableEq

/-- A fresh session: Python field defaults (`turns=[]`,
`active_role=SpeakerRole.BOT`, `escalated=False`, `resolved=False`). -/
def Session.new (sid : String) : Session :=
  ⟨sid, [], SpeakerRole.BOT, none, false, false⟩

/-- `Session.add_turn`: appends a new `Turn` (with the externally supplied
timestamp `ts`) and recomputes `active_role`: when escalated the human agent
remains active; otherwise customer → bot and bot/agent → customer.  The type
checks on `speaker`/`text` in the Python source are vacuous here because the
embedding is typed.  Returns the updated session and the created turn. -/
def Session.add_turn (s : Session) (speaker : SpeakerRole) (text : String)
    (ts : String) : Session × Turn :=
  let turn : Turn := ⟨speaker, text, ts⟩
  let turns := s.turns ++ [turn]
  let role :=
    if s.escalated then SpeakerRole.HUMAN_AGENT
    else if speaker = SpeakerRole.CUSTOMER then SpeakerRole.BOT
    else SpeakerRole.CUSTOMER
  ({ s with turns := turns, active_role := role }, turn)

/-- `Session.mark_escalated`: mark session as escalated and make a human
agent the active role. -/
def Session.mark_escalated (s : Session) : Session :=
  { s with escalated := true, active_role := SpeakerRole.HUMAN_AGENT }

/-- `Session.hand_back_to_bot`: return handling to the bot (clear escalation). -/
def Session.hand_back_to_bot (s : Session) : Session :=
  { s with escalated := false, active_role := SpeakerRole.BOT }

/-- Python slice `l[i:]` for an arbitrary (possibly negative) `i`:
a negative start counts from the end and is clamped at 0. -/
def pySliceFrom {β : Type} (l : List β) (i : ℤ) : List β :=
  if 0 ≤ i then l.drop i.toNat else l.drop ((l.length : ℤ) + i).toNat

/-- Python slice `l[:k]` for an arbitrary (possibly negative) `k`:
a negative stop counts from the end and is clamped at 0. -/
def pySliceTo {β : Type} (l : List β) (k : ℤ) : List β :=
  if 0 ≤ k then l.take k.toNat else l.take ((l.length : ℤ) + k).toNat

/-- `Session.get_recent_context`: `"\n".join(str(t) for t in self.turns[-max(0, n):])`.
Note the slice start is `-max(0, n)`, so for `n ≤ 0` it is `-0 = 0` and the
slice keeps the whole list. -/
def Session.get_recent_context (s : Session) (n : ℤ) : String :=
  let recent := pySliceFrom s.turns (-(max 0 n))
  String.intercalate "\n" (recent.map Turn.toStr)

/-- C1: after `add_turn(speaker, text)` on a session, if `escalated` is true
the active role is `HUMAN_AGENT` regardless of speaker; if `escalated` is
false the active role is `BOT` when the speaker was `CUSTOMER` and
`CUSTOMER` when the speaker was `BOT` or `HUMAN_AGENT`. -/
theorem add_turn_active_role (s : Session) (sp : SpeakerRole) (text ts : String) :
    (s.escalated = true →
      (s.add_turn sp text ts).1.active_role = SpeakerRole.HUMAN_AGENT) ∧
    (s.escalated = false →
      (sp = SpeakerRole.CUSTOMER →
        (s.add_turn sp text ts).1.active_role = SpeakerRole.BOT) ∧
      ((sp = SpeakerRole.BOT ∨ sp = SpeakerRole.HUMAN_AGENT) →
        (s.add_turn sp text ts).1.active_role = SpeakerRole.CUSTOMER)) := by
  cases s with
  | mk sid turns ar summ esc res =>
    cases esc <;> cases sp <;>
      simp [Session.add_turn]

/-- Closed instance of `add_turn_active_role`: a fresh (non-escalated)
session where the customer just spoke hands the turn to the bot. -/
theorem add_turn_active_role_witness :
    (Session.new "s1").escalated = false ∧
    ((Session.new "s1").add_turn SpeakerRole.CUSTOMER "hi" "t0").1.active_role
      = SpeakerRole.BOT :=
  ⟨rfl,
    ((add_turn_active_role (Session.new "s1") SpeakerRole.CUSTOMER "hi" "t0").2
      rfl).1 rfl⟩

/-- C2: `mark_escalated` sets `escalated = true` and
`active_role = HUMAN_AGENT` unconditionally and is idempotent;
`hand_back_to_bot` sets `escalated = false` and `active_role = BOT`
unconditionally and is idempotent; `mark_escalated` followed by any
`add_turn` leaves `active_role = HUMAN_AGENT`; and `hand_back_to_bot`
immediately after `mark_escalated` yields `active_role = BOT` and
`escalated = false`. -/
theorem mark_escalated_hand_back_spec (s : Session) :
    s.mark_escalated.escalated = true ∧
    s.mark_escalated.active_role = SpeakerRole.HUMAN_AGENT ∧
    s.mark_escalated.mark_escalated = s.mark_escalated ∧
    s.hand_back_to_bot.escalated = false ∧
    s.hand_back_to_bot.active_role = SpeakerRole.BOT ∧
    s.hand_back_to_bot.hand_back_to_bot = s.hand_back_to_bot ∧
    (∀ sp text ts,
      (s.mark_escalated.add_turn sp text ts).1.active_role
        = SpeakerRole.HUMAN_AGENT) ∧
    s.mark_escalated.hand_back_to_bot.active_role = SpeakerRole.BOT ∧
    s.mark_escalated.hand_back_to_bot.escalated = false := by
  refine ⟨rfl, rfl, rfl, rfl, rfl, rfl, ?_, rfl, rfl⟩
  intro sp text ts
  simp [Session.add_turn, Session.mark_escalated]

/-- C4: `get_recent_context(0)` on a session with one turn.  The Python
source slices `self.turns[-max(0, n):]`; for `n = 0` this is `turns[-0:]`,
i.e. `turns[0:]` — the whole list — so the call returns the rendering of
every turn instead of the empty string promised by the docstring
("Return the last `n` turns"). -/
theorem get_recent_context_zero_bug :
    ({ Session.new "s1" with
        turns := [⟨SpeakerRole.CUSTOMER, "hello", "2024-01-01T00:00:00+00:00"⟩] }
      : Session).get_recent_context 0
      = "2024-01-01T00:00:00+00:00 CUSTOMER: hello" ∧
    "2024-01-01T00:00:00+00:00 CUSTOMER: hello" ≠ "" := by
  constructor
  · rfl
  · decide

/-! ### `src/rag/simple_faq_rag.py` — chunking -/

/-- The whitespace characters stripped by Python's `str.strip()` /
`str.splitlines()`-adjacent operations (ASCII portion). -/
def isPySpace (c : Char) : Bool :=
  c == ' ' || c == '\t' || c == '\n' || c == '\r' || c == '\x0b' || c == '\x0c'

/-- `str.lstrip()` on a character list. -/
def lstripWS (l : List Char) : List Char := l.dropWhile isPySpace

/-- `str.rstrip()` on a character list. -/
def rstripWS (l : List Char) : List Char := (l.reverse.dropWhile isPySpace).reverse

/-- `str.strip()` on a character list. -/
def stripChars (l : List Char) : List Char := rstripWS (lstripWS l)

/-- Split a character list at every newline (keeping empty pieces). -/
def splitOnNl : List Char → List (List Char)
  | [] => [[]]
  | c :: rest =>
    if c = '\n' then [] :: splitOnNl rest
    else
      match splitOnNl rest with
      | [] => [[c]]
      | l :: ls => (c :: l) :: ls

/-- `str.splitlines()` for `\n`-delimited text (the FAQ source is
`\n`-delimited): like splitting at newlines, except that an empty string
yields no lines and a trailing newline does not produce a final empty
line. -/
def pySplitlines (text : List Char) : List (List Char) :=
  if text = [] then []
  else if text.getLast? = some '\n' then (splitOnNl text).dropLast
  else splitOnNl text

/-- `s.lstrip("# ")`: drop leading `#` and space characters. -/
def lstripHashSpace (l : List Char) : List Char :=
  l.dropWhile (fun c => c == '#' || c == ' ')

/-- One iteration of the `for line in text.splitlines()` loop of
`chunk_faq`; the state is `(chunks, current)`.  A blank (stripped-empty)
line flushes `current`; a heading line (stripped line starting with `#`)
flushes `current` and restarts it with the heading text
(`s.lstrip("# ").strip()`); any other line is appended stripped. -/
def processLine (st : List (List Char) × List (List Char)) (line : List Char) :
    List (List Char) × List (List Char) :=
  let s := stripChars line
  if s = [] then
    if st.2 ≠ [] then (st.1 ++ [stripChars (List.intercalate ['\n'] st.2)], [])
    else st
  else if s.head? = some '#' then
    let chunks :=
      if st.2 ≠ [] then st.1 ++ [stripChars (List.intercalate ['\n'] st.2)]
      else st.1
    (chunks, [stripChars (lstripHashSpace s)])
  else (st.1, st.2 ++ [s])

/-- The chunk list built by `chunk_faq` before the final size filter:
run the line loop, then flush any remaining `current`. -/
def chunk_faq_raw (text : List Char) : List (List Char) :=
  let st := (pySplitlines text).foldl processLine ([], [])
  if st.2 ≠ [] then st.1 ++ [stripChars (List.intercalate ['\n'] st.2)]
  else st.1

/-- `chunk_faq`: split the FAQ into chunks by headings and blank lines,
then filter out any tiny chunks (`len(c) > 10`). -/
def chunk_faq (text : List Char) : List (List Char) :=
  (chunk_faq_raw text).filter (fun c => 10 < c.length)

/-- C5 counterexample: on the input `"# A\nfoo\nbar\n\n# B\nbaz"` the chunker
does NOT return the two chunks `"A\nfoo\nbar"` and `"B\nbaz"`: both survive
only until the size filter, which drops them (lengths 9 and 5 are ≤ 10). -/
theorem chunk_faq_sample_not_two_chunks :
    chunk_faq ("# A\nfoo\nbar\n\n# B\nbaz").toList
      ≠ [("A\nfoo\nbar").toList, ("B\nbaz").toList] := by
  decide

/-- C5 amended: on the input `"# A\nfoo\nbar\n\n# B\nbaz"` the chunker
produces exactly the candidates `"A\nfoo\nbar"` and `"B\nbaz"`, in that
order, before the size filter; the filter then drops both (their lengths,
9 and 5, do not exceed 10), so the final result is empty. -/
theorem chunk_faq_sample_two_candidates_filtered :
    chunk_faq_raw ("# A\nfoo\nbar\n\n# B\nbaz").toList
        = [("A\nfoo\nbar").toList, ("B\nbaz").toList] ∧
    chunk_faq ("# A\nfoo\nbar\n\n# B\nbaz").toList = [] := by
  constructor
  · decide
  · decide

/-- The head of `dropWhile p l`, when it exists, falsifies `p`. -/
theorem head?_dropWhile_false {α : Type} (p : α → Bool) (l : List α) {c : α}
    (h : (l.dropWhile p).head? = some c) : p c = false := by
  induction l with
  | nil => simp [List.dropWhile] at h
  | cons a t ih =>
    rw [List.dropWhile_cons] at h
    by_cases hpa : p a
    · rw [if_pos hpa] at h
      exact ih h
    · rw [if_neg hpa] at h
      simp only [List.head?_cons, Option.some.injEq] at h
      subst h
      simpa using hpa

/-- `dropWhile p` is the identity when the head (if any) falsifies `p`. -/
theorem dropWhile_eq_self_of_head? {α : Type} (p : α → Bool) (l : List α)
    (h : ∀ c, l.head? = some c → p c = false) : l.dropWhile p = l := by
  cases l with
  | nil => rfl
  | cons a t =>
    rw [List.dropWhile_cons, if_neg]
    simp [h a rfl]

/-- `dropWhile p` is idempotent. -/
theorem dropWhile_dropWhile {α : Type} (p : α → Bool) (l : List α) :
    (l.dropWhile p).dropWhile p = l.dropWhile p :=
  dropWhile_eq_self_of_head? p _ (fun _ hc => head?_dropWhile_false p l hc)

/-- A nonempty prefix has the same head. -/
theorem IsPrefix.head?_eq {α : Type} {x y : List α} (h : x <+: y) (hx : x ≠ []) :
    y.head? = x.head? := by
  obtain ⟨t, rfl⟩ := h
  cases x with
  | nil => exact absurd rfl hx
  | cons a s => rfl

/-- `rstripWS` returns a prefix of its input. -/
theorem rstripWS_prefix (l : List Char) : rstripWS l <+: l :=
  List.rdropWhile_prefix isPySpace l

/-- Stripping an already left-stripped list is stable under `lstripWS`. -/
theorem lstripWS_rstripWS_lstripWS (l : List Char) :
    lstripWS (rstripWS (lstripWS l)) = rstripWS (lstripWS l) := by
  apply dropWhile_eq_self_of_head?
  intro c hc
  have hne : rstripWS (lstripWS l) ≠ [] := by
    intro hnil
    rw [hnil] at hc
    simp at hc
  have hpre := rstripWS_prefix (lstripWS l)
  have hhd := IsPrefix.head?_eq hpre hne
  rw [hc] at hhd
  exact head?_dropWhile_false isPySpace l hhd

/-- `str.strip()` is idempotent. -/
theorem stripChars_idem (l : List Char) : stripChars (stripChars l) = stripChars l := by
  unfold stripChars
  rw [lstripWS_rstripWS_lstripWS]
  unfold rstripWS
  rw [List.reverse_reverse, dropWhile_dropWhile]

/-- The accumulated chunk list of the `chunk_faq` loop only ever holds
already-stripped strings. -/
theorem foldl_processLine_stripped (lines : List (List Char))
    (st : List (List Char) × List (List Char))
    (h : ∀ c ∈ st.1, stripChars c = c) :
    ∀ c ∈ (lines.foldl processLine st).1, stripChars c = c := by
  induction lines generalizing st with
  | nil => exact h
  | cons line rest ih =>
    rw [List.foldl_cons]
    apply ih
    intro c hc
    unfold processLine at hc
    simp only at hc
    split at hc
    · split at hc
      · rcases List.mem_append.1 hc with hold | hnew
        · exact h c hold
        · rw [List.mem_singleton.1 hnew]
          exact stripChars_idem _
      · exact h c hc
    · split at hc
      · split at hc
        · rcases List.mem_append.1 hc with hold | hnew
          · exact h c hold
          · rw [List.mem_singleton.1 hnew]
            exact stripChars_idem _
        · exact h c hc
      · exact h c hc

/-- Every candidate chunk is an already-stripped string. -/
theorem chunk_faq_raw_stripped (text : List Char) :
    ∀ c ∈ chunk_faq_raw text, stripChars c = c := by
  intro c hc
  unfold chunk_faq_raw at hc
  simp only at hc
  split at hc
  · rcases List.mem_append.1 hc with hold | hnew
    · exact foldl_processLine_stripped _ _ (by simp) c hold
    · rw [List.mem_singleton.1 hnew]
      exact stripChars_idem _
  · exact foldl_processLine_stripped _ _ (by simp) c hc

/-- C6: every chunk returned by `chunk_faq` is an already-stripped string
whose (trimmed) length strictly exceeds 10 characters; candidates of
trimmed length ≤ 10 are dropped by the final filter. -/
theorem chunk_faq_min_length (text : List Char) :
    ∀ c ∈ chunk_faq text, stripChars c = c ∧ 10 < c.length := by
  intro c hc
  rw [chunk_faq, List.mem_filter] at hc
  exact ⟨chunk_faq_raw_stripped text c hc.1, by simpa using hc.2⟩

/-- Closed instance of `chunk_faq_min_length` on a one-heading FAQ. -/
theorem chunk_faq_min_length_witness :
    ("Password reset steps").toList
        ∈ chunk_faq ("# Password reset steps").toList ∧
    stripChars ("Password reset steps").toList = ("Password reset steps").toList ∧
    10 < (("Password reset steps").toList).length :=
  ⟨by decide,
    chunk_faq_min_length ("# Password reset steps").toList
      ("Password reset steps").toList (by decide)⟩

/-! ### `src/rag/simple_faq_rag.py` — similarity and retrieval

`retrieve_faq_chunks` scores every stored `(text, vector)` pair against the
query vector with `_cosine_sim` and sorts with
`scored.sort(key=lambda x: x[0], reverse=True)` — CPython's stable
descending sort — then slices `scored[:k]`.

The embedding model is external (sentence-transformers), so the query
vector and the similarity function are parameters; similarity scores are
IEEE floats in the source, modelled as an arbitrary linear order `α`
(instantiated with `ℝ` for the concrete `cosine_sim` below).  A stable
descending sort is, by definition, the unique sort of the index-tagged
list under the lexicographic order `sortKey`: score descending, then
original position ascending. -/

/-- Sum of squares of a vector, `sum(x * x for x in a)`. -/
def sumSq (a : List ℚ) : ℚ := (a.map (fun x => x * x)).sum

/-- Dot product, `sum(x * y for x, y in zip(a, b))` (equal-length model
vectors; `zip` truncates exactly as the Python fallback does). -/
def dotQ (a b : List ℚ) : ℚ := ((a.zip b).map (fun p => p.1 * p.2)).sum

/-- `_cosine_sim` from the source: 0 for an empty vector, 0 when the
product of the Euclidean norms is zero, otherwise the dot product divided
by that product. -/
noncomputable def cosine_sim (a b : List ℚ) : ℝ :=
  if a.length = 0 ∨ b.length = 0 then 0
  else if Real.sqrt ((sumSq a : ℚ) : ℝ) * Real.sqrt ((sumSq b : ℚ) : ℝ) = 0 then 0
  else ((dotQ a b : ℚ) : ℝ) / (Real.sqrt ((sumSq a : ℚ) : ℝ) * Real.sqrt ((sumSq b : ℚ) : ℝ))

/-- The comparison used to model `scored.sort(key=lambda x: x[0], reverse=True)`
on index-tagged entries `(original position, score, text)`: higher score
first; equal scores keep the original order (stability). -/
def sortKey {α β : Type} [LinearOrder α] (x y : ℕ × α × β) : Prop :=
  y.2.1 < x.2.1 ∨ (x.2.1 = y.2.1 ∧ x.1 ≤ y.1)

instance {α β : Type} [LinearOrder α] : DecidableRel (sortKey (α := α) (β := β)) :=
  fun x y => by unfold sortKey; exact inferInstance

instance {α β : Type} [LinearOrder α] : IsTotal (ℕ × α × β) sortKey := by
  constructor
  intro a b
  rcases lt_trichotomy a.2.1 b.2.1 with h | h | h
  · exact Or.inr (Or.inl h)
  · rcases Nat.le_total a.1 b.1 with hi | hi
    · exact Or.inl (Or.inr ⟨h, hi⟩)
    · exact Or.inr (Or.inr ⟨h.symm, hi⟩)
  · exact Or.inl (Or.inl h)

instance {α β : Type} [LinearOrder α] : IsTrans (ℕ × α × β) sortKey := by
  constructor
  intro a b c hab hbc
  rcases hab with h1 | ⟨e1, i1⟩ <;> rcases hbc with h2 | ⟨e2, i2⟩
  · exact Or.inl (lt_trans h2 h1)
  · exact Or.inl (e2 ▸ h1)
  · exact Or.inl (lt_of_lt_of_le h2 (le_of_eq e1.symm))
  · exact Or.inr ⟨e1.trans e2, le_trans i1 i2⟩

/-- The `scored` list of `retrieve_faq_chunks`:
`[(_cosine_sim(q_vec, vec), text) for text, vec in VECTOR_DB]`. -/
def scoreChunks {α : Type} [LinearOrder α] (sim : List ℚ → List ℚ → α)
    (q_vec : List ℚ) (db : List (List Char × List ℚ)) : List (α × List Char) :=
  db.map (fun p => (sim q_vec p.2, p.1))

/-- `scored.sort(key=lambda x: x[0], reverse=True)` (stable, descending),
modelled as the insertion sort of the index-tagged `scored` list under
`sortKey`. -/
def rankChunks {α : Type} [LinearOrder α] (sim : List ℚ → List ℚ → α)
    (q_vec : List ℚ) (db : List (List Char × List ℚ)) : List (ℕ × α × List Char) :=
  List.insertionSort sortKey (scoreChunks sim q_vec db).enum

/-- `retrieve_faq_chunks(query, k)`: empty result on an empty `VECTOR_DB`;
otherwise sort the scored chunks (stable, descending) and return the texts
of the Python slice `scored[:k]`. -/
def retrieve_faq_chunks {α : Type} [LinearOrder α] (sim : List ℚ → List ℚ → α)
    (q_vec : List ℚ) (db : List (List Char × List ℚ)) (k : ℤ) : List (List Char) :=
  if db = [] then []
  else (pySliceTo (rankChunks sim q_vec db) k).map (fun x => x.2.2)

/-- C9: `_cosine_sim` of an empty or zero-norm vector against anything is 0
(no division is attempted: the guarded branch returns 0). -/
theorem cosine_sim_zero_norm (a b : List ℚ)
    (h : a = [] ∨ b = [] ∨ Real.sqrt ((sumSq a : ℚ) : ℝ) = 0 ∨
      Real.sqrt ((sumSq b : ℚ) : ℝ) = 0) :
    cosine_sim a b = 0 := by
  unfold cosine_sim
  by_cases hlen : a.length = 0 ∨ b.length = 0
  · rw [if_pos hlen]
  · rw [if_neg hlen, if_pos]
    rcases h with h | h | h | h
    · exact absurd (Or.inl (by simp [h])) hlen
    · exact absurd (Or.inr (by simp [h])) hlen
    · rw [h, zero_mul]
    · rw [h, mul_zero]

/-- Closed instance of `cosine_sim_zero_norm`: the zero vector `[0, 0]`
has zero norm, and its cosine similarity against `[1, 2]` is 0. -/
theorem cosine_sim_zero_norm_witness :
    Real.sqrt ((sumSq [0, 0] : ℚ) : ℝ) = 0 ∧ cosine_sim [0, 0] [1, 2] = 0 := by
  have hs : Real.sqrt ((sumSq [0, 0] : ℚ) : ℝ) = 0 := by
    have h0 : ((sumSq [0, 0] : ℚ) : ℝ) = 0 := by norm_num [sumSq]
    rw [h0, Real.sqrt_zero]
  exact ⟨hs, cosine_sim_zero_norm [0, 0] [1, 2] (Or.inr (Or.inr (Or.inl hs)))⟩

/-- C3: for `k ≥ 0`, `retrieve_faq_chunks` returns the texts of the first
`k` entries of the stable descending ranking; hence at most `k` texts, all
of them texts of stored chunks; an empty index yields `[]` (no error); the
ranking is a permutation of the index-tagged scored list whose scores are
non-increasing and whose ties keep the original chunk order. -/
theorem retrieve_faq_chunks_spec {α : Type} [LinearOrder α]
    (sim : List ℚ → List ℚ → α) (q_vec : List ℚ)
    (db : List (List Char × List ℚ)) (k : ℤ) (hk : 0 ≤ k) :
    retrieve_faq_chunks sim q_vec db k
        = ((rankChunks sim q_vec db).take k.toNat).map (fun x => x.2.2) ∧
    (retrieve_faq_chunks sim q_vec db k).length ≤ k.toNat ∧
    (db = [] → retrieve_faq_chunks sim q_vec db k = []) ∧
    (∀ t ∈ retrieve_faq_chunks sim q_vec db k, ∃ p ∈ db, p.1 = t) ∧
    (rankChunks sim q_vec db).Perm (scoreChunks sim q_vec db).enum ∧
    (rankChunks sim q_vec db).Pairwise
      (fun x y => y.2.1 ≤ x.2.1 ∧ (x.2.1 = y.2.1 → x.1 < y.1)) := by
  have hperm : (rankChunks sim q_vec db).Perm (scoreChunks sim q_vec db).enum :=
    List.perm_insertionSort _ _
  have hsorted : List.Sorted sortKey (rankChunks sim q_vec db) :=
    List.sorted_insertionSort _ _
  have hnodup : ((rankChunks sim q_vec db).map Prod.fst).Nodup :=
    ((hperm.map Prod.fst).nodup_iff).2 (List.nodup_enum_map_fst _)
  have hne : (rankChunks sim q_vec db).Pairwise (fun x y => x.1 ≠ y.1) :=
    List.pairwise_map.1 hnodup
  have hpair : (rankChunks sim q_vec db).Pairwise
      (fun x y => y.2.1 ≤ x.2.1 ∧ (x.2.1 = y.2.1 → x.1 < y.1)) := by
    refine (hsorted.and hne).imp ?_
    intro a b h
    rcases h.1 with hlt | ⟨heq, hle⟩
    · exact ⟨le_of_lt hlt, fun he => absurd (he ▸ hlt) (lt_irrefl _)⟩
    · exact ⟨le_of_eq heq.symm, fun _ => lt_of_le_of_ne hle h.2⟩
  have heq : retrieve_faq_chunks sim q_vec db k
      = ((rankChunks sim q_vec db).take k.toNat).map (fun x => x.2.2) := by
    by_cases hdb : db = []
    · subst hdb
      simp [retrieve_faq_chunks, rankChunks, scoreChunks, List.insertionSort]
    · rw [retrieve_faq_chunks, if_neg hdb, pySliceTo, if_pos hk]
  refine ⟨heq, ?_, ?_, ?_, hperm, hpair⟩
  · rw [heq, List.length_map, List.length_take]
    exact min_le_left _ _
  · intro hdb
    rw [retrieve_faq_chunks, if_pos hdb]
  · intro t ht
    rw [heq] at ht
    obtain ⟨x, hx, rfl⟩ := List.mem_map.1 ht
    have hxr : x ∈ rankChunks sim q_vec db := (List.take_sublist _ _).subset hx
    have hxe : x ∈ (scoreChunks sim q_vec db).enum := hperm.subset hxr
    have hx2 : x.2 ∈ scoreChunks sim q_vec db :=
      List.getElem?_mem (List.mem_enum_iff_getElem?.1 hxe)
    rw [scoreChunks, List.mem_map] at hx2
    obtain ⟨p, hp, hpe⟩ := hx2
    exact ⟨p, hp, by rw [← hpe]⟩

/-- Closed instance of `retrieve_faq_chunks_spec`: two stored chunks with
scores 1 and 2, `k = 1` returns exactly the higher-scored text. -/
theorem retrieve_faq_chunks_spec_witness :
    0 ≤ (1 : ℤ) ∧
    retrieve_faq_chunks (fun _ v => (v.length : ℤ)) []
        [(("aa").toList, [1]), (("bb").toList, [1, 2])] 1 = [("bb").toList] := by
  refine ⟨by decide, ?_⟩
  have h := (retrieve_faq_chunks_spec (fun _ v => (v.length : ℤ)) []
    [(("aa").toList, [1]), (("bb").toList, [1, 2])] 1 (by decide)).1
  rw [h]
  decide

/-- C10: the slice `scored[:k]` makes `retrieve_faq_chunks(query, 0)`
return `[]`, while a negative `k` with `-N < k < 0` on an index of `N`
chunks returns the first `N + k` entries of the full ranking (all but the
`|k|` lowest-ranked texts), not an empty sequence. -/
theorem retrieve_faq_chunks_negative_k {α : Type} [LinearOrder α]
    (sim : List ℚ → List ℚ → α) (q_vec : List ℚ)
    (db : List (List Char × List ℚ)) (k : ℤ) :
    retrieve_faq_chunks sim q_vec db 0 = [] ∧
    (db ≠ [] → -(db.length : ℤ) < k → k < 0 →
      retrieve_faq_chunks sim q_vec db k
          = (retrieve_faq_chunks sim q_vec db (db.length : ℤ)).take
              ((db.length : ℤ) + k).toNat ∧
      (retrieve_faq_chunks sim q_vec db k).length
          = ((db.length : ℤ) + k).toNat) := by
  have hrl : (rankChunks sim q_vec db).length = db.length := by
    rw [rankChunks, (List.perm_insertionSort _ _).length_eq, List.enum_length,
      scoreChunks, List.length_map]
  constructor
  · by_cases hdb : db = []
    · rw [retrieve_faq_chunks, if_pos hdb]
    · rw [retrieve_faq_chunks, if_neg hdb, pySliceTo, if_pos le_rfl]
      simp
  · intro hdb hk1 hk2
    have hfull : retrieve_faq_chunks sim q_vec db (db.length : ℤ)
        = (rankChunks sim q_vec db).map (fun x => x.2.2) := by
      rw [retrieve_faq_chunks, if_neg hdb, pySliceTo,
        if_pos (by positivity : (0 : ℤ) ≤ (db.length : ℤ))]
      rw [Int.toNat_natCast, ← hrl, List.take_length]
    have hcut : retrieve_faq_chunks sim q_vec db k
        = ((rankChunks sim q_vec db).take ((db.length : ℤ) + k).toNat).map
            (fun x => x.2.2) := by
      rw [retrieve_faq_chunks, if_neg hdb, pySliceTo, if_neg (by omega), hrl]
    constructor
    · rw [hcut, hfull, List.map_take]
    · rw [hcut, List.length_map, List.length_take, hrl]
      omega

/-- Closed instance of `retrieve_faq_chunks_negative_k`: two stored chunks
and `k = -1` return one chunk (all but the lowest-ranked), not `[]`. -/
theorem retrieve_faq_chunks_negative_k_witness :
    ([(("aa").toList, ([1] : List ℚ)), (("bb").toList, [1, 2])]
        ≠ ([] : List (List Char × List ℚ))) ∧
    -(([(("aa").toList, ([1] : List ℚ)), (("bb").toList, [1, 2])].length : ℤ))
        < -1 ∧
    (-1 : ℤ) < 0 ∧
    (retrieve_faq_chunks (fun _ v => (v.length : ℤ)) []
        [(("aa").toList, [1]), (("bb").toList, [1, 2])] (-1)).length
      = (([(("aa").toList, ([1] : List ℚ)), (("bb").toList, [1, 2])].length : ℤ)
          + -1).toNat :=
  ⟨by decide, by decide, by decide,
    ((retrieve_faq_chunks_negative_k (fun _ v => (v.length : ℤ)) []
        [(("aa").toList, [1]), (("bb").toList, [1, 2])] (-1)).2
      (by decide) (by decide) (by decide)).2⟩

/-! ### `src/rag/simple_faq_rag.py` — module state and `get_rag_context`

The module-level mutable state (`VECTOR_DB`, `_LOADED_FAQ_TEXT`) is passed
explicitly; the external collaborators are parameters: `encode` (the batch
`model.encode(chunks)`, which can raise — `Except Unit`), `qembed` (the
query embedding `model.encode([query])[0]`), and `docText` (the text that
`load_faq_markdown` returns).  Each call also reports whether it invoked
document loading and index building, the observable call counters of the
spec's testable properties. -/

/-- The module-level state of `simple_faq_rag`: `VECTOR_DB` and
`_LOADED_FAQ_TEXT` (the embedding-model handle is folded into the
`encode`/`qembed` parameters). -/
structure RagState : Type where
  vector_db : List (List Char × List ℚ)
  loaded_faq_text : Option (List Char)
deriving DecidableEq

/-- Fresh process state: `VECTOR_DB = []`, `_LOADED_FAQ_TEXT = None`. -/
def RagState.init : RagState := ⟨[], none⟩

/-- `build_faq_index(chunks)`: one batch `model.encode` call, then
`VECTOR_DB` is replaced by the zipped `(text, vector)` pairs.  If encoding
raises, `VECTOR_DB` is left untouched (the assignment comes after the
`encode` call in the source). -/
def build_faq_index (encode : List (List Char) → Except Unit (List (List ℚ)))
    (chunks : List (List Char)) (st : RagState) : Except Unit RagState :=
  match encode chunks with
  | .error e => .error e
  | .ok embeddings => .ok { st with vector_db := chunks.zip embeddings }

instance {ε γ : Type} [DecidableEq ε] [DecidableEq γ] : DecidableEq (Except ε γ) :=
  fun a b =>
    match a, b with
    | .error e, .error f => decidable_of_iff (e = f) (by simp)
    | .ok x, .ok y => decidable_of_iff (x = y) (by simp)
    | .error _, .ok _ => isFalse (by simp)
    | .ok _, .error _ => isFalse (by simp)

/-- Result of one `get_rag_context` call: the module state afterwards,
whether the document was loaded and the index built during the call, and
the returned string (or the propagated exception). -/
structure RagCall : Type where
  state : RagState
  did_load : Bool
  did_build : Bool
  result : Except Unit (List Char)
deriving DecidableEq

/-- `get_rag_context(question, k)`: if `VECTOR_DB` is empty, load the FAQ
text (unless `_LOADED_FAQ_TEXT` is already set), chunk it and build the
index; then retrieve the top-`k` chunks and join them with a blank line. -/
def get_rag_context {α : Type} [LinearOrder α] (sim : List ℚ → List ℚ → α)
    (qembed : List Char → List ℚ)
    (encode : List (List Char) → Except Unit (List (List ℚ)))
    (docText question : List Char) (k : ℤ) (st : RagState) : RagCall :=
  if st.vector_db = [] then
    let p :=
      match st.loaded_faq_text with
      | none => (docText, true, { st with loaded_faq_text := some docText })
      | some t => (t, false, st)
    match build_faq_index encode (chunk_faq p.1) p.2.2 with
    | .error e => ⟨p.2.2, p.2.1, true, .error e⟩
    | .ok st2 =>
        ⟨st2, p.2.1, true,
          .ok (List.intercalate ['\n', '\n']
            (retrieve_faq_chunks sim (qembed question) st2.vector_db k))⟩
  else
    ⟨st, false, false,
      .ok (List.intercalate ['\n', '\n']
        (retrieve_faq_chunks sim (qembed question) st.vector_db k))⟩

/-- C7: starting from a fresh process state, with an FAQ document that
chunks to a nonempty list and an encoder returning one vector per chunk,
the first `get_rag_context` call loads the document and builds the index,
and the second call with the same question and `k` reuses the cached state
(no load, no build), leaves the state unchanged, and returns the identical
output. -/
theorem get_rag_context_idempotent {α : Type} [LinearOrder α]
    (sim : List ℚ → List ℚ → α) (qembed : List Char → List ℚ)
    (encode : List (List Char) → Except Unit (List (List ℚ)))
    (docText question : List Char) (k : ℤ) (embs : List (List ℚ))
    (hchunks : chunk_faq docText ≠ [])
    (henc : encode (chunk_faq docText) = .ok embs)
    (hlen : embs.length = (chunk_faq docText).length) :
    (get_rag_context sim qembed encode docText question k RagState.init).did_load
        = true ∧
    (get_rag_context sim qembed encode docText question k RagState.init).did_build
        = true ∧
    (get_rag_context sim qembed encode docText question k
        (get_rag_context sim qembed encode docText question k
          RagState.init).state).state
      = (get_rag_context sim qembed encode docText question k
          RagState.init).state ∧
    (get_rag_context sim qembed encode docText question k
        (get_rag_context sim qembed encode docText question k
          RagState.init).state).did_load = false ∧
    (get_rag_context sim qembed encode docText question k
        (get_rag_context sim qembed encode docText question k
          RagState.init).state).did_build = false ∧
    (get_rag_context sim qembed encode docText question k
        (get_rag_context sim qembed encode docText question k
          RagState.init).state).result
      = (get_rag_context sim qembed encode docText question k
          RagState.init).result := by
  have hdb : (chunk_faq docText).zip embs ≠ [] := by
    cases hc : chunk_faq docText with
    | nil => exact absurd hc hchunks
    | cons a t =>
      cases he : embs with
      | nil =>
        rw [hc, he] at hlen
        simp at hlen
      | cons b u => simp [hc, he]
  have h1 : get_rag_context sim qembed encode docText question k RagState.init
      = ⟨⟨(chunk_faq docText).zip embs, some docText⟩, true, true,
          .ok (List.intercalate ['\n', '\n']
            (retrieve_faq_chunks sim (qembed question)
              ((chunk_faq docText).zip embs) k))⟩ := by
    simp [get_rag_context, RagState.init, build_faq_index, henc]
  rw [h1]
  simp [get_rag_context, hdb]

/-- Closed instance of `get_rag_context_idempotent` on a one-chunk FAQ:
the second call performs no index build. -/
theorem get_rag_context_idempotent_witness :
    chunk_faq ("# Refund policy details\nLine two here").toList ≠ [] ∧
    (get_rag_context (fun _ v => (v.length : ℤ)) (fun _ => [])
        (fun cs => .ok (cs.map (fun _ => ([1] : List ℚ))))
        ("# Refund policy details\nLine two here").toList ("refund").toList 3
        (get_rag_context (fun _ v => (v.length : ℤ)) (fun _ => [])
          (fun cs => .ok (cs.map (fun _ => ([1] : List ℚ))))
          ("# Refund policy details\nLine two here").toList ("refund").toList 3
          RagState.init).state).did_build = false :=
  ⟨by decide,
    (get_rag_context_idempotent (fun _ v => (v.length : ℤ)) (fun _ => [])
      (fun cs => .ok (cs.map (fun _ => ([1] : List ℚ))))
      ("# Refund policy details\nLine two here").toList ("refund").toList 3
      [[1]] (by decide) (by decide) (by decide)).2.2.2.2.1⟩

/-- C8: when the embedding backend raises during the index build, the call
propagates the error and leaves `VECTOR_DB` empty (no partial index); the
next `get_rag_context` call re-enters the initialization branch (builds
again) instead of treating the stale empty index as valid, and with a
working encoder it produces the fully built index. -/
theorem get_rag_context_failed_build {α : Type} [LinearOrder α]
    (sim : List ℚ → List ℚ → α) (qembed : List Char → List ℚ)
    (encode2 : List (List Char) → Except Unit (List (List ℚ)))
    (docText question : List Char) (k : ℤ) (embs : List (List ℚ))
    (henc2 : encode2 (chunk_faq docText) = .ok embs) :
    (get_rag_context sim qembed (fun _ => .error ()) docText question k
        RagState.init).state.vector_db = [] ∧
    (get_rag_context sim qembed (fun _ => .error ()) docText question k
        RagState.init).result = .error () ∧
    (get_rag_context sim qembed (fun _ => .error ()) docText question k
        RagState.init).did_build = true ∧
    (get_rag_context sim qembed encode2 docText question k
        (get_rag_context sim qembed (fun _ => .error ()) docText question k
          RagState.init).state).did_build = true ∧
    (get_rag_context sim qembed encode2 docText question k
        (get_rag_context sim qembed (fun _ => .error ()) docText question k
          RagState.init).state).state.vector_db
      = (chunk_faq docText).zip embs := by
  have h1 : get_rag_context sim qembed (fun _ => .error ()) docText question k
      RagState.init = ⟨⟨[], some docText⟩, true, true, .error ()⟩ := by
    simp [get_rag_context, RagState.init, build_faq_index]
  rw [h1]
  refine ⟨rfl, rfl, rfl, ?_, ?_⟩
  · simp [get_rag_context, build_faq_index, henc2]
  · simp [get_rag_context, build_faq_index, henc2]

/-- Closed instance of `get_rag_context_failed_build`: after a failed
build, a retry with a working encoder fills `VECTOR_DB`. -/
theorem get_rag_context_failed_build_witness :
    ((fun cs => Except.ok (cs.map (fun _ => ([1] : List ℚ))))
        (chunk_faq ("# Refund policy details\nLine two here").toList)
      : Except Unit (List (List ℚ))) = .ok [[1]] ∧
    (get_rag_context (fun _ v => (v.length : ℤ)) (fun _ => [])
        (fun cs => .ok (cs.map (fun _ => ([1] : List ℚ))))
        ("# Refund policy details\nLine two here").toList ("refund").toList 3
        (get_rag_context (fun _ v => (v.length : ℤ)) (fun _ => [])
          (fun _ => .error ())
          ("# Refund policy details\nLine two here").toList ("refund").toList 3
          RagState.init).state).state.vector_db
      = (chunk_faq ("# Refund policy details\nLine two here").toList).zip [[1]] :=
  ⟨by decide,
    (get_rag_context_failed_build (fun _ v => (v.length : ℤ)) (fun _ => [])
      (fun cs => .ok (cs.map (fun _ => ([1] : List ℚ))))
      ("# Refund policy details\nLine two here").toList ("refund").toList 3
      [[1]] (by decide)).2.2.2.2⟩
